import Mathlib

/-!
# Verification of the serverless to-do CRUD handler

A shallow embedding of `src/lambda_function.py`: a single AWS-Lambda-style
request handler that dispatches on the HTTP method and performs one operation
against an external key-value table of to-do items.

The external table (DynamoDB, accessed through `boto3`) is not part of the
repository's source; its five operations are modelled from the spec's
"External interfaces" section as an association list of items keyed by `id`.
Randomness (`uuid.uuid4()`) is modelled by passing the 122 random bits of a
version-4 UUID as an explicit argument.
-/

/-- A stored to-do item: `id` is the table key, `title` the client-supplied
text, `completed` the mutable flag. -/
structure Item where
  id : String
  title : String
  completed : Bool
deriving DecidableEq, Repr

/-- The external item store: a collection of items keyed by `id`. -/
abbrev Store := List Item

/-- Modelled from the spec: `scan_all() -> list<item>`, the unconditional full
scan of the store used by `table.scan()`. -/
def scanAll (s : Store) : List Item := s

/-- Modelled from the spec: `get(id) -> item`, a key lookup as performed by
`table.get_item`; `none` when no stored item has the key. -/
def getItem (s : Store) (i : String) : Option Item :=
  s.find? (fun x => x.id == i)

/-- Modelled from the spec: `put(item)`, insert-or-overwrite by key as
performed by `table.put_item`. -/
def putItem (s : Store) (it : Item) : Store :=
  if s.any (fun x => x.id == it.id) then
    s.map (fun x => if x.id == it.id then it else x)
  else
    s ++ [it]

/-- Modelled from the spec: `update_field(id, "completed", v)`, the partial
update performed by `table.update_item` with `SET completed = :val`; it touches
only the `completed` field of the item keyed by `id`.  Per the spec's error
taxonomy a missing item for update is an unhandled failure of the request, so
on a missing `id` the store is left unchanged and the subsequent fresh read
fails. -/
def updateCompleted (s : Store) (i : String) (v : Bool) : Store :=
  s.map (fun x => if x.id == i then { x with completed := v } else x)

/-- Modelled from the spec: `delete(id)`, remove by key with no existence
check, as performed by `table.delete_item`. -/
def deleteItem (s : Store) (i : String) : Store :=
  s.filter (fun x => x.id != i)

/-- A primitive JSON value as used by this handler: strings and booleans. -/
inductive JVal where
  | str (s : String)
  | bool (b : Bool)
deriving DecidableEq, Repr

/-- A JSON object, as an association list of fields. -/
abbrev JObj := List (String × JVal)

/-- A JSON document emitted by the handler: a single object or an array of
objects (the list of items returned by the scan). -/
inductive Json where
  | obj (o : JObj)
  | arr (l : List JObj)
deriving DecidableEq, Repr

/-- String escaping inside Python `json.dumps` output (quote and backslash). -/
def escapeChar (c : Char) : String :=
  if c = '\\' then "\\\\" else if c = '"' then "\\\"" else String.singleton c

/-- Escape a whole string for JSON output. -/
def escapeStr (s : String) : String :=
  String.join (s.toList.map escapeChar)

/-- Serialize a primitive JSON value. -/
def dumpsJVal : JVal → String
  | .str s => "\"" ++ escapeStr s ++ "\""
  | .bool b => if b then "true" else "false"

/-- Serialize one `"key": value` field. -/
def dumpsField (kv : String × JVal) : String :=
  "\"" ++ escapeStr kv.1 ++ "\": " ++ dumpsJVal kv.2

/-- Serialize a JSON object with Python's default separators. -/
def dumpsJObj (o : JObj) : String :=
  "\x7b" ++ String.intercalate ", " (o.map dumpsField) ++ "\x7d"

/-- Model of Python `json.dumps` on the documents this handler emits. -/
def dumps : Json → String
  | .obj o => dumpsJObj o
  | .arr l => "[" ++ String.intercalate ", " (l.map dumpsJObj) ++ "]"

/-- A Python-level exception escaping `lambda_handler` as an unhandled
failure. -/
inductive Err where
  | keyError
  | typeError
  | valueError
deriving DecidableEq, Repr

/-- The inbound event: the HTTP method read from
`event["requestContext"]["http"]["method"]` and the request body after
`json.loads` (`none` when the body is absent or not a JSON object, in which
case `json.loads` raises). -/
structure Event where
  method : String
  body : Option JObj
deriving DecidableEq, Repr

/-- `json.loads(event["body"])`: yields the parsed object or raises. -/
def loads : Option JObj → Except Err JObj
  | some o => .ok o
  | none => .error Err.valueError

/-- `data[k]` where the handler uses the value as a string (`title`, `id`):
`KeyError` when the key is absent. -/
def getStrField (o : JObj) (k : String) : Except Err String :=
  match o.lookup k with
  | some (JVal.str s) => .ok s
  | some _ => .error Err.typeError
  | none => .error Err.keyError

/-- `data[k]` where the handler uses the value as a boolean (`completed`):
`KeyError` when the key is absent. -/
def getBoolField (o : JObj) (k : String) : Except Err Bool :=
  match o.lookup k with
  | some (JVal.bool b) => .ok b
  | some _ => .error Err.typeError
  | none => .error Err.keyError

/-- The three fixed CORS headers attached to every response. -/
def corsHeaders : List (String × String) :=
  [("Access-Control-Allow-Origin", "*"),
   ("Access-Control-Allow-Methods", "OPTIONS,GET,POST,PUT,DELETE"),
   ("Access-Control-Allow-Headers", "Content-Type")]

/-- The structured HTTP response returned to the runtime. -/
structure HTTPResponse where
  statusCode : Nat
  headers : List (String × String)
  body : String
deriving DecidableEq, Repr

/-- `response(status, body)` from the source: fixed CORS headers and a
JSON-encoded body. -/
def response (status : Nat) (body : Json) : HTTPResponse :=
  { statusCode := status, headers := corsHeaders, body := dumps body }

/-- The JSON object stored for, and serialized from, an item. -/
def itemToJObj (it : Item) : JObj :=
  [("id", JVal.str it.id), ("title", JVal.str it.title),
   ("completed", JVal.bool it.completed)]

/-- `lambda_handler(event, context)` from the source.  `freshId` stands for
the string `str(uuid.uuid4())` generated during the call; the store is
threaded explicitly.  An `Except.error` is an unhandled Python exception
propagating out of the handler. -/
def lambda_handler (freshId : String) (event : Event) (store : Store) :
    Except Err (HTTPResponse × Store) :=
  let method := event.method
  if method = "OPTIONS" then
    .ok ({ statusCode := 200, headers := corsHeaders,
           body := dumps (Json.obj [("message", JVal.str "CORS preflight OK")]) },
         store)
  else if method = "GET" then
    .ok (response 200 (Json.arr ((scanAll store).map itemToJObj)), store)
  else if method = "POST" then
    match loads event.body with
    | .error e => .error e
    | .ok data =>
      match getStrField data "title" with
      | .error e => .error e
      | .ok title =>
        let item : Item := { id := freshId, title := title, completed := false }
        .ok (response 200 (Json.obj (itemToJObj item)), putItem store item)
  else if method = "PUT" then
    match loads event.body with
    | .error e => .error e
    | .ok data =>
      match getStrField data "id" with
      | .error e => .error e
      | .ok i =>
        match getBoolField data "completed" with
        | .error e => .error e
        | .ok v =>
          let store2 := updateCompleted store i v
          match getItem store2 i with
          | none => .error Err.keyError
          | some it => .ok (response 200 (Json.obj (itemToJObj it)), store2)
  else if method = "DELETE" then
    match loads event.body with
    | .error e => .error e
    | .ok data =>
      match getStrField data "id" with
      | .error e => .error e
      | .ok i =>
        .ok (response 200
               (Json.obj [("message", JVal.str "Deleted"), ("id", JVal.str i)]),
             deleteItem store i)
  else
    .ok (response 400 (Json.obj [("error", JVal.str "Unsupported method")]), store)

/-- Lowercase hexadecimal digit character for `d` (so `0`–`9`, `a`–`f`). -/
def hexChar (d : Nat) : Char :=
  if d < 10 then Char.ofNat (48 + d) else Char.ofNat (87 + d)

/-- Big-endian fixed-width base-16 digit list of `n`
(Python `"%032x" % n` when the width is 32). -/
def hexBE : Nat → Nat → List Char
  | 0, _ => []
  | w + 1, n => hexBE w (n / 16) ++ [hexChar (n % 16)]

/-- The character list of `str(uuid.UUID(int=n))`: the 32 hex digits of the
128-bit integer, in groups of 8-4-4-4-12 separated by dashes. -/
def uuidChars (n : Nat) : List Char :=
  let h := hexBE 32 n
  h.take 8 ++ '-' :: (h.drop 8).take 4 ++ '-' :: (h.drop 12).take 4 ++
    '-' :: (h.drop 16).take 4 ++ '-' :: h.drop 20

/-- The 128-bit integer of `uuid.uuid4()` as a function of its 122 random
bits `r`: the version nibble (bits 76–79) is forced to `4` and the variant
bits (bits 62–63) to `10`, exactly as `uuid.UUID(bytes=os.urandom(16),
version=4)` does. -/
def uuid4Int (r : Nat) : Nat :=
  r % 2 ^ 62 + 2 ^ 63 + 2 ^ 64 * (r / 2 ^ 62 % 2 ^ 12) + 2 ^ 76 * 4 +
    2 ^ 80 * (r / 2 ^ 74)

/-- `str(uuid.uuid4())` as a function of the 122 random bits drawn by the
generator. -/
def uuid4String (r : Fin (2 ^ 122)) : String :=
  String.mk (uuidChars (uuid4Int r.val))

/-- The store effect the spec ascribes to each mutating invocation: exactly
one item changed — some key's lookup differs, every other key's is
unchanged. -/
def mutatesExactlyOne (s s2 : Store) : Prop :=
  ∃ i, getItem s2 i ≠ getItem s i ∧ ∀ j, j ≠ i → getItem s2 j = getItem s j

/-! ## Injectivity of the version-4 UUID string -/

/-- Numeric value of a lowercase hex digit character. -/
def digitVal (c : Char) : Nat :=
  if c.toNat ≤ 57 then c.toNat - 48 else c.toNat - 87

/-- Decode a big-endian hex digit list back to the number it encodes. -/
def decodeHex (l : List Char) : Nat :=
  l.foldl (fun a c => 16 * a + digitVal c) 0

theorem digitVal_hexChar : ∀ d < 16, digitVal (hexChar d) = d := by decide

theorem hexChar_ne_dash : ∀ d < 16, hexChar d ≠ '-' := by decide

theorem foldl_hexBE (w : Nat) : ∀ n a, n < 16 ^ w →
    List.foldl (fun a c => 16 * a + digitVal c) a (hexBE w n) = a * 16 ^ w + n := by
  induction w with
  | zero =>
    intro n a h
    interval_cases n
    simp [hexBE]
  | succ w ih =>
    intro n a h
    have h1 : n / 16 < 16 ^ w := by
      rw [Nat.div_lt_iff_lt_mul (by norm_num)]
      calc n < 16 ^ (w + 1) := h
        _ = 16 ^ w * 16 := by ring
    rw [hexBE, List.foldl_append, ih (n / 16) a h1]
    simp only [List.foldl_cons, List.foldl_nil]
    rw [digitVal_hexChar _ (Nat.mod_lt _ (by norm_num))]
    rw [pow_succ, ← mul_assoc]
    generalize a * 16 ^ w = X
    omega

theorem decodeHex_hexBE {n : Nat} (h : n < 16 ^ 32) : decodeHex (hexBE 32 n) = n := by
  unfold decodeHex
  rw [foldl_hexBE 32 n 0 h]
  simp

theorem mem_hexBE_ne_dash (w : Nat) : ∀ n c, c ∈ hexBE w n → c ≠ '-' := by
  induction w with
  | zero =>
    intro n c h
    simp [hexBE] at h
  | succ w ih =>
    intro n c h
    rw [hexBE] at h
    rcases List.mem_append.mp h with h1 | h2
    · exact ih _ _ h1
    · simp only [List.mem_singleton] at h2
      subst h2
      exact hexChar_ne_dash _ (Nat.mod_lt _ (by norm_num))

/-- Dropping the dashes from a UUID string recovers the 32 hex digits. -/
theorem filter_uuidChars (n : Nat) :
    (uuidChars n).filter (fun c => c != '-') = hexBE 32 n := by
  unfold uuidChars
  have hall : ∀ l : List Char, (∀ c ∈ l, c ∈ hexBE 32 n) →
      l.filter (fun c => c != '-') = l := by
    intro l hl
    apply List.filter_eq_self.mpr
    intro c hc
    simpa using mem_hexBE_ne_dash 32 n c (hl c hc)
  simp only [List.filter_append, List.filter_cons]
  norm_num
  rw [hall _ (fun c hc => List.mem_of_mem_take hc),
      hall _ (fun c hc => List.mem_of_mem_drop (List.mem_of_mem_take hc)),
      hall _ (fun c hc => List.mem_of_mem_drop (List.mem_of_mem_take hc)),
      hall _ (fun c hc => List.mem_of_mem_drop (List.mem_of_mem_take hc)),
      hall _ (fun c hc => List.mem_of_mem_drop hc)]
  have e20 : (hexBE 32 n).drop 20 = ((hexBE 32 n).drop 16).drop 4 := by
    rw [List.drop_drop]
  rw [e20, List.take_append_drop]
  have e16 : (hexBE 32 n).drop 16 = ((hexBE 32 n).drop 12).drop 4 := by
    rw [List.drop_drop]
  rw [e16, List.take_append_drop]
  have e12 : (hexBE 32 n).drop 12 = ((hexBE 32 n).drop 8).drop 4 := by
    rw [List.drop_drop]
  rw [e12, List.take_append_drop, List.take_append_drop]

theorem uuidChars_inj {n1 n2 : Nat} (h1 : n1 < 16 ^ 32) (h2 : n2 < 16 ^ 32)
    (he : uuidChars n1 = uuidChars n2) : n1 = n2 := by
  have h := congrArg (fun l => decodeHex (l.filter (fun c => c != '-'))) he
  simpa [filter_uuidChars, decodeHex_hexBE h1, decodeHex_hexBE h2] using h

theorem uuid4Int_lt {r : Nat} (h : r < 2 ^ 122) : uuid4Int r < 2 ^ 128 := by
  unfold uuid4Int
  norm_num at h ⊢
  omega

theorem uuid4Int_inj {r1 r2 : Nat} (h1 : r1 < 2 ^ 122) (h2 : r2 < 2 ^ 122)
    (he : uuid4Int r1 = uuid4Int r2) : r1 = r2 := by
  unfold uuid4Int at he
  norm_num at h1 h2 he
  omega

/-- Distinct draws of the 122 random bits give distinct UUID strings: the
generator's output space has the full 2 ^ 122 distinct identifiers. -/
theorem uuid4String_injective : Function.Injective uuid4String := by
  intro r1 r2 he
  have hd : uuidChars (uuid4Int r1.val) = uuidChars (uuid4Int r2.val) := by
    have h := congrArg String.data he
    simpa [uuid4String] using h
  have hlt : (16 : Nat) ^ 32 = 2 ^ 128 := by norm_num
  have hn : uuid4Int r1.val = uuid4Int r2.val :=
    uuidChars_inj (hlt ▸ uuid4Int_lt r1.isLt) (hlt ▸ uuid4Int_lt r2.isLt) hd
  exact Fin.ext (uuid4Int_inj r1.isLt r2.isLt hn)

/-! ## Store lemmas -/

theorem getItem_cons (x : Item) (xs : Store) (i : String) :
    getItem (x :: xs) i = if x.id = i then some x else getItem xs i := by
  by_cases h : x.id = i
  · simp [getItem, List.find?_cons_of_pos, h]
  · simp [getItem, List.find?_cons_of_neg, h]

theorem updateCompleted_cons (x : Item) (xs : Store) (i : String) (v : Bool) :
    updateCompleted (x :: xs) i v =
      (if x.id = i then { x with completed := v } else x) :: updateCompleted xs i v := by
  by_cases h : x.id = i <;> simp [updateCompleted, h]

theorem deleteItem_cons (x : Item) (xs : Store) (i : String) :
    deleteItem (x :: xs) i =
      if x.id = i then deleteItem xs i else x :: deleteItem xs i := by
  by_cases h : x.id = i <;> simp [deleteItem, List.filter_cons, h]

theorem getItem_updateCompleted_self (s : Store) (i : String) (v : Bool) :
    getItem (updateCompleted s i v) i =
      (getItem s i).map (fun it => { it with completed := v }) := by
  induction s with
  | nil => rfl
  | cons x xs ih =>
    rw [updateCompleted_cons, getItem_cons, getItem_cons]
    by_cases hx : x.id = i
    · simp [hx]
    · simp [hx, ih]

theorem getItem_updateCompleted_other (s : Store) (i j : String) (v : Bool)
    (hj : j ≠ i) : getItem (updateCompleted s i v) j = getItem s j := by
  have hij : i ≠ j := fun h => hj h.symm
  induction s with
  | nil => rfl
  | cons x xs ih =>
    rw [updateCompleted_cons, getItem_cons, getItem_cons]
    by_cases hx : x.id = i
    · simp [hx, hij, ih]
    · by_cases hxj : x.id = j
      · simp [hx, hxj, hj]
      · simp [hx, hxj, ih]

theorem getItem_overwrite_other (s : Store) (it : Item) (j : String)
    (hj : j ≠ it.id) :
    getItem (s.map (fun x => if x.id == it.id then it else x)) j = getItem s j := by
  have h1 : it.id ≠ j := fun h => hj h.symm
  induction s with
  | nil => rfl
  | cons x xs ih =>
    rw [List.map_cons, getItem_cons, getItem_cons]
    by_cases hx : x.id = it.id
    · have h2 : x.id ≠ j := hx ▸ h1
      simp only [hx, if_pos, beq_self_eq_true, if_true, if_neg h1]
      simpa using ih
    · by_cases hxj : x.id = j
      · simp [hx, hxj, hj]
      · simp only [beq_iff_eq, hx, if_false, ite_false, if_neg hxj]
        simpa using ih

theorem getItem_putItem_other (s : Store) (it : Item) (j : String)
    (hj : j ≠ it.id) : getItem (putItem s it) j = getItem s j := by
  unfold putItem
  split
  · exact getItem_overwrite_other s it j hj
  · have h1 : it.id ≠ j := fun h => hj h.symm
    unfold getItem
    rw [List.find?_append]
    have hb : (it.id == j) = false := by simp [h1]
    cases List.find? (fun x => x.id == j) s <;> simp [List.find?, Option.orElse, hb]

theorem getItem_deleteItem_self (s : Store) (i : String) :
    getItem (deleteItem s i) i = none := by
  induction s with
  | nil => rfl
  | cons x xs ih =>
    rw [deleteItem_cons]
    by_cases hx : x.id = i
    · simp [hx, ih]
    · rw [if_neg hx, getItem_cons, if_neg hx]
      exact ih

theorem getItem_deleteItem_other (s : Store) (i j : String) (hj : j ≠ i) :
    getItem (deleteItem s i) j = getItem s j := by
  have hij : i ≠ j := fun h => hj h.symm
  induction s with
  | nil => rfl
  | cons x xs ih =>
    rw [deleteItem_cons, getItem_cons]
    by_cases hx : x.id = i
    · have hxj : x.id ≠ j := fun h => hj (h ▸ hx)
      simp [hx, hxj, hij, ih]
    · rw [if_neg hx, getItem_cons]
      by_cases hxj : x.id = j
      · simp [hxj]
      · simp [hxj, ih]

/-! ## Claim theorems -/

/-- C7: For every OPTIONS request, regardless of body, the handler returns
status 200 with the three fixed CORS headers and the body
`\x7b"message": "CORS preflight OK"\x7d`, and performs no store operation. -/
theorem c7_options_preflight (freshId : String) (b : Option JObj) (store : Store) :
    lambda_handler freshId ⟨"OPTIONS", b⟩ store =
      .ok ({ statusCode := 200, headers := corsHeaders,
             body := dumps (Json.obj [("message", JVal.str "CORS preflight OK")]) },
           store) := by
  rfl

/-- C5: For every GET request and every store state, the handler performs an
unconditional full scan and returns status 200 with a body listing every item
currently in the store, unfiltered and in store order, with no pagination. -/
theorem c5_get_full_scan (freshId : String) (b : Option JObj) (store : Store) :
    lambda_handler freshId ⟨"GET", b⟩ store =
      .ok (response 200 (Json.arr ((scanAll store).map itemToJObj)), store)
    ∧ scanAll store = store := by
  exact ⟨rfl, rfl⟩

/-- C8: For every request whose method is none of OPTIONS, GET, POST, PUT,
DELETE, the handler returns status 400 with body
`\x7b"error": "Unsupported method"\x7d` and performs no store operation. -/
theorem c8_unsupported_method_400 (freshId : String) (m : String) (b : Option JObj)
    (store : Store) (h1 : m ≠ "OPTIONS") (h2 : m ≠ "GET") (h3 : m ≠ "POST")
    (h4 : m ≠ "PUT") (h5 : m ≠ "DELETE") :
    lambda_handler freshId ⟨m, b⟩ store =
      .ok (response 400 (Json.obj [("error", JVal.str "Unsupported method")]),
           store) := by
  simp [lambda_handler, h1, h2, h3, h4, h5]

/-- Witness for C8 at the concrete method `"PATCH"` of the spec's test. -/
theorem c8_unsupported_method_400_witness :
    lambda_handler "u" ⟨"PATCH", none⟩ [] =
      .ok (response 400 (Json.obj [("error", JVal.str "Unsupported method")]),
           ([] : Store)) :=
  c8_unsupported_method_400 "u" "PATCH" none []
    (by decide) (by decide) (by decide) (by decide) (by decide)

/-- C10: Method dispatch is case-sensitive string equality: the lowercase
`"get"` and mixed-case `"Post"` fall through to the 400 unsupported-method
response and leave the store untouched. -/
theorem c10_case_sensitive_dispatch (freshId : String) (b : Option JObj)
    (store : Store) :
    lambda_handler freshId ⟨"get", b⟩ store =
      .ok (response 400 (Json.obj [("error", JVal.str "Unsupported method")]),
           store)
    ∧ lambda_handler freshId ⟨"Post", b⟩ store =
      .ok (response 400 (Json.obj [("error", JVal.str "Unsupported method")]),
           store) := by
  exact ⟨rfl, rfl⟩

/-- C3: For every DELETE request whose body contains an `id`, the handler
removes the item keyed by that id and returns 200 with
`\x7b"message": "Deleted", "id": <id>\x7d`, for every store state alike (no
existence check); afterwards the store holds no item with that id. -/
theorem c3_delete_no_existence_check (freshId : String) (store : Store)
    (o : JObj) (i : String) (h : o.lookup "id" = some (JVal.str i)) :
    lambda_handler freshId ⟨"DELETE", some o⟩ store =
      .ok (response 200
             (Json.obj [("message", JVal.str "Deleted"), ("id", JVal.str i)]),
           deleteItem store i)
    ∧ getItem (deleteItem store i) i = none := by
  constructor
  · simp [lambda_handler, loads, getStrField, h]
  · exact getItem_deleteItem_self store i

/-- Witness for C3: deleting id `"x"` from a store that does not contain it
still reports success. -/
theorem c3_delete_no_existence_check_witness :
    ([("id", JVal.str "x")] : JObj).lookup "id" = some (JVal.str "x")
    ∧ (lambda_handler "u" ⟨"DELETE", some [("id", JVal.str "x")]⟩
         [⟨"a", "t", false⟩] =
        .ok (response 200
               (Json.obj [("message", JVal.str "Deleted"), ("id", JVal.str "x")]),
             deleteItem [⟨"a", "t", false⟩] "x")
       ∧ getItem (deleteItem [⟨"a", "t", false⟩] "x") "x" = none) :=
  ⟨rfl, c3_delete_no_existence_check "u" [⟨"a", "t", false⟩]
      [("id", JVal.str "x")] "x" rfl⟩

/-- C1: For every POST request whose body contains a title, the handler builds
an item whose id is the freshly generated version-4 UUID string (injective in
the generator's 122 random bits), whose title is the client-supplied title and
whose completed field is false; it persists exactly that item and returns
status 200 with exactly that constructed item as the body, not a re-read. -/
theorem c1_post_create (r : Fin (2 ^ 122)) (store : Store) (o : JObj)
    (t : String) (h : o.lookup "title" = some (JVal.str t)) :
    lambda_handler (uuid4String r) ⟨"POST", some o⟩ store =
      .ok (response 200 (Json.obj (itemToJObj ⟨uuid4String r, t, false⟩)),
           putItem store ⟨uuid4String r, t, false⟩)
    ∧ Function.Injective uuid4String := by
  constructor
  · simp [lambda_handler, loads, getStrField, h]
  · exact uuid4String_injective

/-- Witness for C1: creating `"Buy milk"` with the all-zero random draw. -/
theorem c1_post_create_witness :
    ([("title", JVal.str "Buy milk")] : JObj).lookup "title" =
      some (JVal.str "Buy milk")
    ∧ (lambda_handler (uuid4String ⟨0, by norm_num⟩)
         ⟨"POST", some [("title", JVal.str "Buy milk")]⟩ [] =
        .ok (response 200
               (Json.obj (itemToJObj ⟨uuid4String ⟨0, by norm_num⟩, "Buy milk", false⟩)),
             putItem [] ⟨uuid4String ⟨0, by norm_num⟩, "Buy milk", false⟩)
       ∧ Function.Injective uuid4String) :=
  ⟨rfl, c1_post_create ⟨0, by norm_num⟩ [] [("title", JVal.str "Buy milk")]
      "Buy milk" rfl⟩

/-- C2: For every PUT request whose body contains `id` and `completed` and
whose id names a stored item, the write changes only that item's `completed`
field (title and id unchanged, all other items unchanged), and the response
body is the fresh post-write read of the item, not the caller's values. -/
theorem c2_put_partial_update (freshId : String) (store : Store) (o : JObj)
    (i : String) (c : Bool) (it : Item)
    (hid : o.lookup "id" = some (JVal.str i))
    (hc : o.lookup "completed" = some (JVal.bool c))
    (hex : getItem store i = some it) :
    lambda_handler freshId ⟨"PUT", some o⟩ store =
      .ok (response 200 (Json.obj (itemToJObj { it with completed := c })),
           updateCompleted store i c)
    ∧ getItem (updateCompleted store i c) i = some { it with completed := c }
    ∧ (∀ j, j ≠ i → getItem (updateCompleted store i c) j = getItem store j) := by
  have h2 : getItem (updateCompleted store i c) i =
      some { it with completed := c } := by
    rw [getItem_updateCompleted_self, hex]
    rfl
  refine ⟨?_, h2, fun j hj => getItem_updateCompleted_other store i j c hj⟩
  simp [lambda_handler, loads, getStrField, getBoolField, hid, hc, h2]

/-- Witness for C2: completing item `"a"` whose stored title is `"t"`. -/
theorem c2_put_partial_update_witness :
    ([("id", JVal.str "a"), ("completed", JVal.bool true)] : JObj).lookup "id" =
      some (JVal.str "a")
    ∧ ([("id", JVal.str "a"), ("completed", JVal.bool true)] : JObj).lookup
        "completed" = some (JVal.bool true)
    ∧ getItem [⟨"a", "t", false⟩] "a" = some ⟨"a", "t", false⟩
    ∧ (lambda_handler "u"
         ⟨"PUT", some [("id", JVal.str "a"), ("completed", JVal.bool true)]⟩
         [⟨"a", "t", false⟩] =
        .ok (response 200 (Json.obj (itemToJObj ⟨"a", "t", true⟩)),
             updateCompleted [⟨"a", "t", false⟩] "a" true)
       ∧ getItem (updateCompleted [⟨"a", "t", false⟩] "a" true) "a" =
           some ⟨"a", "t", true⟩
       ∧ (∀ j, j ≠ "a" →
           getItem (updateCompleted [⟨"a", "t", false⟩] "a" true) j =
             getItem [⟨"a", "t", false⟩] j)) :=
  ⟨rfl, rfl, rfl,
   c2_put_partial_update "u" [⟨"a", "t", false⟩]
     [("id", JVal.str "a"), ("completed", JVal.bool true)] "a" true
     ⟨"a", "t", false⟩ rfl rfl rfl⟩

/-- C6: A PUT request whose body names an id with no stored item is not
locally recovered: the handler propagates an unhandled failure (the KeyError
of `updated["Item"]`) instead of returning a structured 200 response. -/
theorem c6_put_missing_item_fails (freshId : String) (store : Store) (o : JObj)
    (i : String) (c : Bool)
    (hid : o.lookup "id" = some (JVal.str i))
    (hc : o.lookup "completed" = some (JVal.bool c))
    (hmiss : getItem store i = none) :
    lambda_handler freshId ⟨"PUT", some o⟩ store = .error Err.keyError := by
  have h2 : getItem (updateCompleted store i c) i = none := by
    rw [getItem_updateCompleted_self, hmiss]
    rfl
  simp [lambda_handler, loads, getStrField, getBoolField, hid, hc, h2]

/-- Witness for C6: updating the absent id `"zz"` in a one-item store. -/
theorem c6_put_missing_item_fails_witness :
    ([("id", JVal.str "zz"), ("completed", JVal.bool true)] : JObj).lookup "id" =
      some (JVal.str "zz")
    ∧ ([("id", JVal.str "zz"), ("completed", JVal.bool true)] : JObj).lookup
        "completed" = some (JVal.bool true)
    ∧ getItem [⟨"a", "t", false⟩] "zz" = none
    ∧ lambda_handler "u"
        ⟨"PUT", some [("id", JVal.str "zz"), ("completed", JVal.bool true)]⟩
        [⟨"a", "t", false⟩] = .error Err.keyError :=
  ⟨rfl, rfl, rfl,
   c6_put_missing_item_fails "u" [⟨"a", "t", false⟩]
     [("id", JVal.str "zz"), ("completed", JVal.bool true)] "zz" true
     rfl rfl rfl⟩

/-- C4: Every response the handler returns — OPTIONS, GET, POST, PUT, DELETE
and the unsupported-method case alike — carries exactly the three CORS headers
(allow-origin `*`, allow-methods `OPTIONS,GET,POST,PUT,DELETE`, allow-headers
`Content-Type`), and its body is a JSON-encoded string. -/
theorem c4_cors_headers_always (freshId : String) (ev : Event) (store : Store)
    (res : HTTPResponse) (store2 : Store)
    (h : lambda_handler freshId ev store = .ok (res, store2)) :
    res.headers = corsHeaders ∧ ∃ j : Json, res.body = dumps j := by
  obtain ⟨m, b⟩ := ev
  unfold lambda_handler at h
  by_cases h1 : m = "OPTIONS"
  · rw [if_pos h1] at h
    simp only [Except.ok.injEq, Prod.mk.injEq] at h
    obtain ⟨hr, hs⟩ := h
    subst hr
    exact ⟨rfl, Json.obj [("message", JVal.str "CORS preflight OK")], rfl⟩
  · rw [if_neg h1] at h
    by_cases h2 : m = "GET"
    · rw [if_pos h2] at h
      simp only [Except.ok.injEq, Prod.mk.injEq] at h
      obtain ⟨hr, hs⟩ := h
      subst hr
      exact ⟨rfl, Json.arr (List.map itemToJObj (scanAll store)), rfl⟩
    · rw [if_neg h2] at h
      by_cases h3 : m = "POST"
      · rw [if_pos h3] at h
        cases b with
        | none => simp [loads] at h
        | some o =>
          simp only [loads] at h
          cases hf : getStrField o "title" with
          | error e => simp only [hf] at h; exact Except.noConfusion h
          | ok t =>
            simp only [hf, Except.ok.injEq, Prod.mk.injEq] at h
            obtain ⟨hr, hs⟩ := h
            subst hr
            exact ⟨rfl, Json.obj (itemToJObj ⟨freshId, t, false⟩), rfl⟩
      · rw [if_neg h3] at h
        by_cases h4 : m = "PUT"
        · rw [if_pos h4] at h
          cases b with
          | none => simp [loads] at h
          | some o =>
            simp only [loads] at h
            cases hf1 : getStrField o "id" with
            | error e => simp only [hf1] at h; exact Except.noConfusion h
            | ok i =>
              simp only [hf1] at h
              cases hf2 : getBoolField o "completed" with
              | error e => simp only [hf2] at h; exact Except.noConfusion h
              | ok v =>
                simp only [hf2] at h
                cases hg : getItem (updateCompleted store i v) i with
                | none => simp only [hg] at h; exact Except.noConfusion h
                | some it =>
                  simp only [hg, Except.ok.injEq, Prod.mk.injEq] at h
                  obtain ⟨hr, hs⟩ := h
                  subst hr
                  exact ⟨rfl, Json.obj (itemToJObj it), rfl⟩
        · rw [if_neg h4] at h
          by_cases h5 : m = "DELETE"
          · rw [if_pos h5] at h
            cases b with
            | none => simp [loads] at h
            | some o =>
              simp only [loads] at h
              cases hf : getStrField o "id" with
              | error e => simp only [hf] at h; exact Except.noConfusion h
              | ok i =>
                simp only [hf, Except.ok.injEq, Prod.mk.injEq] at h
                obtain ⟨hr, hs⟩ := h
                subst hr
                exact ⟨rfl,
                  Json.obj [("message", JVal.str "Deleted"), ("id", JVal.str i)], rfl⟩
          · rw [if_neg h5] at h
            simp only [Except.ok.injEq, Prod.mk.injEq] at h
            obtain ⟨hr, hs⟩ := h
            subst hr
            exact ⟨rfl, Json.obj [("error", JVal.str "Unsupported method")], rfl⟩

/-- C9 (amended): every completed invocation mutates at most one item of the
external store — all items with a key other than the generated or supplied id
are unchanged — and GET and OPTIONS leave the store entirely unchanged. -/
theorem c9_frame_amended (freshId : String) (ev : Event) (store : Store)
    (res : HTTPResponse) (store2 : Store)
    (h : lambda_handler freshId ev store = .ok (res, store2)) :
    (∃ i, ∀ j, j ≠ i → getItem store2 j = getItem store j)
    ∧ ((ev.method = "GET" ∨ ev.method = "OPTIONS") → store2 = store) := by
  obtain ⟨m, b⟩ := ev
  unfold lambda_handler at h
  by_cases h1 : m = "OPTIONS"
  · rw [if_pos h1] at h
    simp only [Except.ok.injEq, Prod.mk.injEq] at h
    obtain ⟨hr, hs⟩ := h
    subst hs
    exact ⟨⟨"", fun j _ => rfl⟩, fun _ => rfl⟩
  · rw [if_neg h1] at h
    by_cases h2 : m = "GET"
    · rw [if_pos h2] at h
      simp only [Except.ok.injEq, Prod.mk.injEq] at h
      obtain ⟨hr, hs⟩ := h
      subst hs
      exact ⟨⟨"", fun j _ => rfl⟩, fun _ => rfl⟩
    · rw [if_neg h2] at h
      by_cases h3 : m = "POST"
      · rw [if_pos h3] at h
        cases b with
        | none => simp [loads] at h
        | some o =>
          simp only [loads] at h
          cases hf : getStrField o "title" with
          | error e => simp only [hf] at h; exact Except.noConfusion h
          | ok t =>
            simp only [hf, Except.ok.injEq, Prod.mk.injEq] at h
            obtain ⟨hr, hs⟩ := h
            subst hs
            refine ⟨⟨freshId, fun j hj => getItem_putItem_other store _ j hj⟩, ?_⟩
            intro hor
            rcases hor with hg | ho
            · exact absurd hg h2
            · exact absurd ho h1
      · rw [if_neg h3] at h
        by_cases h4 : m = "PUT"
        · rw [if_pos h4] at h
          cases b with
          | none => simp [loads] at h
          | some o =>
            simp only [loads] at h
            cases hf1 : getStrField o "id" with
            | error e => simp only [hf1] at h; exact Except.noConfusion h
            | ok i =>
              simp only [hf1] at h
              cases hf2 : getBoolField o "completed" with
              | error e => simp only [hf2] at h; exact Except.noConfusion h
              | ok v =>
                simp only [hf2] at h
                cases hg : getItem (updateCompleted store i v) i with
                | none => simp only [hg] at h; exact Except.noConfusion h
                | some it =>
                  simp only [hg, Except.ok.injEq, Prod.mk.injEq] at h
                  obtain ⟨hr, hs⟩ := h
                  subst hs
                  refine ⟨⟨i, fun j hj =>
                    getItem_updateCompleted_other store i j v hj⟩, ?_⟩
                  intro hor
                  rcases hor with hgm | ho
                  · exact absurd hgm h2
                  · exact absurd ho h1
        · rw [if_neg h4] at h
          by_cases h5 : m = "DELETE"
          · rw [if_pos h5] at h
            cases b with
            | none => simp [loads] at h
            | some o =>
              simp only [loads] at h
              cases hf : getStrField o "id" with
              | error e => simp only [hf] at h; exact Except.noConfusion h
              | ok i =>
                simp only [hf, Except.ok.injEq, Prod.mk.injEq] at h
                obtain ⟨hr, hs⟩ := h
                subst hs
                refine ⟨⟨i, fun j hj => getItem_deleteItem_other store i j hj⟩, ?_⟩
                intro hor
                rcases hor with hgm | ho
                · exact absurd hgm h2
                · exact absurd ho h1
          · rw [if_neg h5] at h
            simp only [Except.ok.injEq, Prod.mk.injEq] at h
            obtain ⟨hr, hs⟩ := h
            subst hs
            exact ⟨⟨"", fun j _ => rfl⟩, fun _ => rfl⟩

/-- Counterexample to C9 as stated: a DELETE for an id absent from the store
completes with status 200 yet mutates zero items, not exactly one — the store
is unchanged, so no key's lookup differs. -/
theorem c9_mutates_exactly_one_counterexample :
    lambda_handler "u" ⟨"DELETE", some [("id", JVal.str "x")]⟩ [] =
      .ok (response 200
             (Json.obj [("message", JVal.str "Deleted"), ("id", JVal.str "x")]),
           ([] : Store))
    ∧ ¬ mutatesExactlyOne [] [] := by
  constructor
  · rfl
  · rintro ⟨i, hne, _⟩
    exact hne rfl

/-- Witness for C4 at a concrete OPTIONS invocation. -/
theorem c4_cors_headers_always_witness :
    lambda_handler "u" ⟨"OPTIONS", none⟩ [] =
      .ok ({ statusCode := 200, headers := corsHeaders,
             body := dumps (Json.obj [("message", JVal.str "CORS preflight OK")]) },
           ([] : Store))
    ∧ (({ statusCode := 200, headers := corsHeaders,
          body := dumps (Json.obj [("message", JVal.str "CORS preflight OK")]) } :
            HTTPResponse).headers = corsHeaders
       ∧ ∃ j : Json,
           ({ statusCode := 200, headers := corsHeaders,
              body := dumps (Json.obj [("message", JVal.str "CORS preflight OK")]) } :
                HTTPResponse).body = dumps j) :=
  ⟨rfl, c4_cors_headers_always "u" ⟨"OPTIONS", none⟩ [] _ [] rfl⟩

/-- Witness for the amended C9 at a concrete OPTIONS invocation on a one-item
store. -/
theorem c9_frame_amended_witness :
    lambda_handler "u" ⟨"OPTIONS", none⟩ [⟨"a", "t", false⟩] =
      .ok ({ statusCode := 200, headers := corsHeaders,
             body := dumps (Json.obj [("message", JVal.str "CORS preflight OK")]) },
           ([⟨"a", "t", false⟩] : Store))
    ∧ ((∃ i, ∀ j, j ≠ i →
          getItem [⟨"a", "t", false⟩] j = getItem [⟨"a", "t", false⟩] j)
       ∧ (("OPTIONS" = "GET" ∨ "OPTIONS" = "OPTIONS") →
           ([⟨"a", "t", false⟩] : Store) = [⟨"a", "t", false⟩])) :=
  ⟨rfl, c9_frame_amended "u" ⟨"OPTIONS", none⟩ [⟨"a", "t", false⟩] _
      [⟨"a", "t", false⟩] rfl⟩
